import Mathlib

/-!
# Verification of the drop lifecycle / persistence core

Shallow embedding, in Lean 4, of the state-and-lifecycle core of the
`gtm-factory` repository: the drop state machine and its persistence
(`core/ui/state_manager.py`), the research dispatch adapter
(`core/ui/adapters/researcher_adapter.py`), the synthesis generators
(`core/generators/*.py`), the context tracker (`core/ui/context_tracker.py`)
and the strategic-context extractor (`core/hq/context_extractor.py`).

Python strings are modelled as `List Char` where string algorithms
(split / join / strip) must be reasoned about, and as `String` where only
equality matters.  File-system state is modelled as explicit maps and lists;
fallible Python code (raised exceptions) is modelled with `Except`.
-/

namespace GtmFactory

/-! ## Python string primitives over `List Char`

`pySplit` is `str.split("\n")` (with Python's semantics: splitting the empty
string yields one empty field), `pyJoin` is `"\n".join`, `pyStrip` is
`str.strip()` restricted to ASCII whitespace. -/

abbrev Str := List Char

/-- `"\n".join(xs)` from Python. -/
def pyJoin : List Str → Str
  | [] => []
  | [x] => x
  | x :: xs => x ++ '\n' :: pyJoin xs

/-- `s.split("\n")` from Python: always returns at least one field. -/
def pySplit : Str → List Str
  | [] => [[]]
  | c :: cs =>
    if c = '\n' then [] :: pySplit cs
    else
      match pySplit cs with
      | [] => [[c]]
      | l :: ls => (c :: l) :: ls

/-- ASCII whitespace recognised by Python's `str.strip()`. -/
def pyIsSpace (c : Char) : Bool :=
  c = ' ' || c = '\t' || c = '\n' || c = '\r' || c = '\x0b' || c = '\x0c'

/-- `s.strip()` from Python (ASCII whitespace). -/
def pyStrip (s : Str) : Str :=
  ((s.dropWhile pyIsSpace).reverse.dropWhile pyIsSpace).reverse

theorem pySplit_ne_nil (s : Str) : pySplit s ≠ [] := by
  induction s with
  | nil => simp [pySplit]
  | cons c cs ih =>
    simp only [pySplit]
    split
    · simp
    · cases h : pySplit cs with
      | nil => simp
      | cons l ls => simp

/-- Splitting a concatenation at a separator splits each side independently. -/
theorem pySplit_append_newline (u v : Str) :
    pySplit (u ++ '\n' :: v) = pySplit u ++ pySplit v := by
  induction u with
  | nil => simp [pySplit]
  | cons c cs ih =>
    by_cases hc : c = '\n'
    · subst hc
      simp [pySplit, ih]
    · simp only [List.cons_append, pySplit, if_neg hc, ih]
      cases h : pySplit cs with
      | nil => exact absurd h (pySplit_ne_nil cs)
      | cons l ls => simp only [List.append_eq]; rw [ih, h]; simp

theorem pySplit_append_last (u : Str) :
    pySplit (u ++ ['\n']) = pySplit u ++ [[]] := by
  have := pySplit_append_newline u []
  simpa [pySplit] using this

/-- A string containing no newline splits into a single field. -/
theorem pySplit_no_newline (s : Str) (h : '\n' ∉ s) : pySplit s = [s] := by
  induction s with
  | nil => simp [pySplit]
  | cons c cs ih =>
    have hc : c ≠ '\n' := fun hh => h (hh ▸ List.mem_cons_self c cs)
    have hcs : '\n' ∉ cs := fun hh => h (List.mem_cons_of_mem c hh)
    simp [pySplit, hc, ih hcs]

/-- `pyJoin` is a left inverse of `pySplit`. -/
theorem pyJoin_pySplit (s : Str) : pyJoin (pySplit s) = s := by
  induction s with
  | nil => simp [pySplit, pyJoin]
  | cons c cs ih =>
    by_cases hc : c = '\n'
    · subst hc
      have hsplit : pySplit ('\n' :: cs) = [] :: pySplit cs := by
        simp [pySplit]
      rw [hsplit]
      cases h : pySplit cs with
      | nil => exact absurd h (pySplit_ne_nil cs)
      | cons l ls => rw [h] at ih; simp [pyJoin, ih]
    · simp only [pySplit, if_neg hc]
      cases h : pySplit cs with
      | nil => exact absurd h (pySplit_ne_nil cs)
      | cons l ls =>
        rw [h] at ih
        cases ls with
        | nil => simp_all [pyJoin]
        | cons l2 ls2 => simp_all [pyJoin]

theorem dropWhile_append_of_eq_nil {p : Char → Bool} {s : Str} (t : Str)
    (h : s.dropWhile p = []) : (s ++ t).dropWhile p = t.dropWhile p := by
  induction s with
  | nil => simp
  | cons c cs ih =>
    by_cases hp : p c
    · simp only [List.dropWhile_cons, hp, if_true] at h ⊢
      simp only [List.cons_append, List.dropWhile_cons, hp, if_true]
      exact ih h
    · simp [List.dropWhile_cons, hp] at h

theorem dropWhile_append_of_ne_nil {p : Char → Bool} {s : Str} (t : Str) {a : Char}
    {as : Str} (h : s.dropWhile p = a :: as) :
    (s ++ t).dropWhile p = a :: as ++ t := by
  induction s with
  | nil => simp at h
  | cons c cs ih =>
    by_cases hp : p c
    · simp only [List.dropWhile_cons, hp, if_true] at h ⊢
      simp only [List.cons_append, List.dropWhile_cons, hp, if_true]
      exact ih h
    · simp only [List.dropWhile_cons, hp] at h ⊢
      simp only [List.cons_append, List.dropWhile_cons, hp]
      simp only [if_false, Bool.false_eq_true, if_neg] at h ⊢
      cases h
      simp

theorem pyStrip_cons_newline (s : Str) : pyStrip ('\n' :: s) = pyStrip s := by
  simp [pyStrip, List.dropWhile, pyIsSpace]

theorem pyStrip_append_newline (s : Str) : pyStrip (s ++ ['\n']) = pyStrip s := by
  unfold pyStrip
  cases h : s.dropWhile pyIsSpace with
  | nil =>
    rw [dropWhile_append_of_eq_nil _ h]
    simp [List.dropWhile, pyIsSpace]
  | cons a as =>
    rw [dropWhile_append_of_ne_nil _ h]
    simp [List.dropWhile_cons, pyIsSpace]

/-! ## Drop lifecycle states (`core/ui/state_manager.py`, `class DropState`)

The Python enum has exactly five members; there is no `CANCELLED` member.
`DropState.ofString` embeds the enum constructor `DropState(value)`:
`none` models the `ValueError` Python raises on an unknown value. -/

inductive DropState where
  | proposed
  | researching
  | synthesizing
  | complete
  | failed
deriving DecidableEq, Repr

/-- `DropState.PROPOSED.value`, etc. -/
def DropState.value : DropState → String
  | .proposed => "proposed"
  | .researching => "researching"
  | .synthesizing => "synthesizing"
  | .complete => "complete"
  | .failed => "failed"

/-- `DropState(s)`: `none` models the `ValueError` raised for a value that is
not a member of the enum. -/
def DropState.ofString (s : String) : Option DropState :=
  if s = "proposed" then some .proposed
  else if s = "researching" then some .researching
  else if s = "synthesizing" then some .synthesizing
  else if s = "complete" then some .complete
  else if s = "failed" then some .failed
  else none

theorem DropState.ofString_value (s : DropState) : DropState.ofString s.value = some s := by
  cases s <;> rfl

/-- The JSON record persisted in `drops/<id>/drop-state.json`.  Written only by
`StateManager.update_drop_state`, which always produces exactly these four
fields. -/
structure StateData where
  drop_id : String
  created_at : String
  state : String
  updated_at : String
deriving DecidableEq, Repr

namespace StateManager

/-- The persisted drop-state files of one session: `drop_id ↦` parsed content
of `drops/<drop_id>/drop-state.json` (`none` = file absent). -/
def Store := String → Option StateData

/-- `StateManager.update_drop_state(drop_id, state)`.  The Python accepts both
a `DropState` and a raw string (`state.value if hasattr(state, 'value') else
state`), so the new state is taken here as a raw string; `now` stands for
`datetime.now().isoformat()`.  Loads the existing record or creates a fresh
one, then overwrites only `state` and `updated_at`, and persists atomically. -/
def update_drop_state (store : Store) (now drop_id stateStr : String) : Store :=
  fun d =>
    if d = drop_id then
      some (match store drop_id with
        | some old => { old with state := stateStr, updated_at := now }
        | none =>
          { drop_id := drop_id, created_at := now, state := stateStr, updated_at := now })
    else store d

/-- `StateManager.get_drop_state(drop_id)`: `ok none` when the state file does
not exist, `error` models the `ValueError` that `DropState(state_data["state"])`
raises on a value outside the enum. -/
def get_drop_state (store : Store) (drop_id : String) : Except String (Option DropState) :=
  match store drop_id with
  | none => .ok none
  | some sd =>
    match DropState.ofString sd.state with
    | none => .error (sd.state ++ " is not a valid DropState")
    | some st => .ok (some st)

/-- One entry of `session/drops/` as `find_incomplete_drops` iterates it:
either not a directory, or a directory with or without a `drop-state.json`. -/
structure DirEntry where
  isDir : Bool
  stateFile : Option StateData
deriving DecidableEq, Repr

/-- `StateManager.find_incomplete_drops()`.  Iterates the drop directories,
skips non-directories and directories without a state file, parses each state
with the `DropState` constructor (which raises on unknown values — modelled by
`Except.error`), and collects records whose state is `PROPOSED`,
`RESEARCHING` or `SYNTHESIZING`. -/
def find_incomplete_drops : List DirEntry → Except String (List StateData)
  | [] => .ok []
  | e :: es =>
    if e.isDir = false then find_incomplete_drops es
    else
      match e.stateFile with
      | none => find_incomplete_drops es
      | some sd =>
        match DropState.ofString sd.state with
        | none => .error (sd.state ++ " is not a valid DropState")
        | some st =>
          match find_incomplete_drops es with
          | .error msg => .error msg
          | .ok rest =>
            if st = .proposed ∨ st = .researching ∨ st = .synthesizing then
              .ok (sd :: rest)
            else
              .ok rest

end StateManager

/-! ## Conversation markdown (`_format_conversation_md` / `_parse_conversation_md`)

Messages are `{"role": ..., "content": ...}` dictionaries; both fields are
modelled as `List Char` so that the line-oriented parser can be reasoned
about. -/

structure Msg where
  role : Str
  content : Str
deriving DecidableEq, Repr

/-- `str.upper()` (ASCII). -/
def pyUpper (s : Str) : Str := s.map Char.toUpper

/-- The `f"## {role}\n"` element appended by the formatter for one message. -/
def markerPiece (role : Str) : Str := "## ".toList ++ pyUpper role ++ ['\n']

/-- The two `lines` elements appended per message by the formatter's loop. -/
def messagePieces (messages : List Msg) : List Str :=
  messages.flatMap (fun m => [markerPiece m.role, m.content ++ ['\n']])

/-- `StateManager._format_conversation_md(messages)`: a title line, then for
each message a `## ROLE` line element and a content element, each ending in a
newline, joined with `"\n"`. -/
def format_conversation_md (messages : List Msg) : Str :=
  pyJoin (("# Conversation History\n".toList) :: messagePieces messages)

/-- The loop body state machine of `_parse_conversation_md`: walks the lines,
starts a new message at `## USER` / `## ASSISTANT` markers (flushing the
previous one), skips `# `-prefixed lines, and accumulates everything else as
content; the final message is flushed at the end. -/
def parse_lines : List Str → Option Str → List Str → List Msg
  | [], none, _ => []
  | [], some r, acc => [⟨r, pyStrip (pyJoin acc)⟩]
  | l :: ls, r, acc =>
    if ("## USER".toList).isPrefixOf l then
      (match r with
       | some r0 => [⟨r0, pyStrip (pyJoin acc)⟩]
       | none => []) ++ parse_lines ls (some "user".toList) []
    else if ("## ASSISTANT".toList).isPrefixOf l then
      (match r with
       | some r0 => [⟨r0, pyStrip (pyJoin acc)⟩]
       | none => []) ++ parse_lines ls (some "assistant".toList) []
    else if ("# ".toList).isPrefixOf l then
      parse_lines ls r acc
    else
      parse_lines ls r (acc ++ [l])

/-- `StateManager._parse_conversation_md(conversation_md)`. -/
def parse_conversation_md (doc : Str) : List Msg :=
  parse_lines (pySplit doc) none []

/-! ## Durable writes and crash observability

`StateManager._atomic_write` writes the full content to a `.tmp` sibling and
then renames it over the destination (`tmp_file.replace(file_path)`), while
several other persistence sites call `Path.write_text` directly, which opens
the destination with truncation and writes in place.

`writeObservables` gives, per protocol, every content a reader of the
destination path can observe if the process crashes at an arbitrary point of
the write (`none` / `some` = file absent / present, `old` = the previous
content of the destination). -/

inductive WriteMethod where
  /-- write to a `.tmp` sibling, then atomic rename over the destination -/
  | atomicReplace
  /-- `Path.write_text(...)`: open destination with truncation, write in place -/
  | direct
deriving DecidableEq, Repr

/-- Every prefix of a string, shortest first (the possible on-disk contents
after a crash part-way through an in-place truncating write). -/
def strTake (s : String) (n : Nat) : String := ⟨s.data.take n⟩

def prefixesOf (s : String) : List String :=
  (List.range (s.length + 1)).map (strTake s)

/-- Destination contents observable across a crash-interrupted write. -/
def writeObservables : WriteMethod → Option String → String → List (Option String)
  | .atomicReplace, old, content =>
    -- the tmp sibling absorbs the partial states; the destination jumps
    -- atomically from the old version to the new one
    [old, some content]
  | .direct, old, content =>
    -- before the open: old; after the truncating open: every prefix
    old :: (prefixesOf content).map some

/-- The file-persistence sites of the repository and the protocol each one
uses, read off the source:
`state_manager.py` routes `autosave_conversation`,
`promote_conversation_to_drop`, `update_drop_state` and `save_session_state`
through `_atomic_write`; `general_researcher.py` saves
`<researcher_id>-output.md` with `output_file.write_text(findings)`;
`latest_generator.py` `save_latest`, `critical_analyst_generator.py`
`save_analysis` and `session_metadata_generator.py`
`save_session_metadata` / `save_drop_metadata` likewise call `write_text`
directly. -/
def writeSites : List (String × WriteMethod) :=
  [("state_manager.autosave_conversation", .atomicReplace),
   ("state_manager.promote_conversation_to_drop", .atomicReplace),
   ("state_manager.update_drop_state", .atomicReplace),
   ("state_manager.save_session_state", .atomicReplace),
   ("general_researcher.execute_research.researcher_output", .direct),
   ("latest_generator.save_latest", .direct),
   ("critical_analyst_generator.save_analysis", .direct),
   ("session_metadata_generator.save_session_metadata", .direct),
   ("session_metadata_generator.save_drop_metadata", .direct)]

/-- The write sites implemented by `StateManager._atomic_write`. -/
def stateManagerSites : List String :=
  ["state_manager.autosave_conversation",
   "state_manager.promote_conversation_to_drop",
   "state_manager.update_drop_state",
   "state_manager.save_session_state"]

/-! ## Context tracker (`core/ui/context_tracker.py`)

`_estimate_tokens`, `can_compact` and `estimate_compaction_savings`.
`estimate_compaction_savings` computes `int(old_tokens * 0.7)` in Python —
an IEEE-754 double multiplication followed by truncation toward zero.
`pyIntMul07` reproduces that computation exactly for `t < 2^53` (the range in
which `float(t)` is exact): `6305039478318694 / 2^53` is the double nearest
to `0.7`, and the product is rounded to 53 significant bits with
round-half-to-even before truncating. -/

/-- Numerator of the IEEE-754 double nearest 0.7, over `2^53`. -/
def fl07Num : Nat := 6305039478318694

/-- Round `p / 2^s` to an integer significand with round-half-to-even (the
IEEE-754 rounding step of the product). -/
def roundMantissa (p s : Nat) : Nat :=
  if 2 ^ (s - 1) < p % 2 ^ s ∨ (p % 2 ^ s = 2 ^ (s - 1) ∧ (p / 2 ^ s) % 2 = 1) then
    p / 2 ^ s + 1
  else p / 2 ^ s

/-- `int(t * 0.7)` as CPython evaluates it (for `t < 2^53`, where `float(t)`
is exact): the exact product `t · fl(0.7)` — a multiple of `2^(-53)` — is
rounded to 53 significant bits (round to nearest, ties to even) and the
resulting double truncated toward zero. -/
def pyIntMul07 (t : Nat) : Nat :=
  if t * fl07Num = 0 then 0
  else if Nat.log2 (t * fl07Num) + 1 ≤ 53 then t * fl07Num / 2 ^ 53
  else
    roundMantissa (t * fl07Num) (Nat.log2 (t * fl07Num) + 1 - 53) *
      2 ^ (Nat.log2 (t * fl07Num) + 1 - 53) / 2 ^ 53

namespace ContextTracker

/-- `ContextTracker._estimate_tokens(char_count)`: `max(1, char_count // 4)`. -/
def estimate_tokens (charCount : Nat) : Nat := max 1 (charCount / 4)

/-- `ContextTracker.can_compact(messages, keep_recent)`:
`len(messages) > keep_recent + 5`. -/
def can_compact (messages : List Msg) (keepRecent : Nat) : Bool :=
  keepRecent + 5 < messages.length

/-- Python's `messages[:-keep_recent]`: all but the last `keep_recent`
messages — except that `[:-0]` is `[:0]`, the empty list. -/
def sliceDropLast (messages : List Msg) (keepRecent : Nat) : List Msg :=
  if keepRecent = 0 then [] else messages.take (messages.length - keepRecent)

/-- Characters of the to-be-summarized portion:
`sum(len(msg["content"]) for msg in old_messages)`. -/
def oldChars (messages : List Msg) (keepRecent : Nat) : Nat :=
  ((sliceDropLast messages keepRecent).map (fun m => m.content.length)).sum

/-- `ContextTracker.estimate_compaction_savings(messages, keep_recent)`. -/
def estimate_compaction_savings (messages : List Msg) (keepRecent : Nat) : Nat :=
  if can_compact messages keepRecent then
    pyIntMul07 (estimate_tokens (oldChars messages keepRecent))
  else 0

end ContextTracker

/-! ## Synthesis generators (`core/generators/`)

Both passes hand one prompt to the external agent (`OpenAI.chat.completions`)
and return its message content; the agent is abstracted as a function
`llm : String → String` applied to the drop-derived context (the static
instruction boilerplate appended to every prompt is folded into the abstract
agent).  Researcher outputs are the globbed `researcher-*-output.md` files as
`(researcher_id, content)` pairs. -/

/-- Context block built by `CriticalAnalystGenerator._generate_analysis`. -/
def buildAnalysisContext (userContext : Option String)
    (outputs : List (String × String)) : String :=
  let parts :=
    (match userContext with
     | some uc =>
       ["<user_context>", "This is the GOLD - the strategic WHY that matters.",
        uc, "</user_context>", ""]
     | none => []) ++
    ["<researcher_outputs>", "Total researchers: " ++ toString outputs.length, ""] ++
    outputs.flatMap (fun o => ["### " ++ o.1, o.2, ""]) ++
    ["</researcher_outputs>"]
  String.intercalate "\n" parts

/-- `CriticalAnalystGenerator.analyze_drop`: raises
`ValueError(f"No researcher outputs found in {drop_path}")` when the drop has
no researcher outputs, otherwise generates the analysis. -/
def analyze_drop (dropPath : String) (userContext : Option String)
    (outputs : List (String × String)) (llm : String → String) :
    Except String String :=
  if outputs.isEmpty then .error ("No researcher outputs found in " ++ dropPath)
  else .ok (llm (buildAnalysisContext userContext outputs))

/-- Context block built by `LatestGenerator._synthesize_incremental`. -/
def buildSynthesisContext (existingLatest userContext : Option String)
    (outputs : List (String × String)) : String :=
  let parts :=
    (match existingLatest with
     | some e => ["<existing_latest>\n" ++ e ++ "\n</existing_latest>"]
     | none => []) ++
    (match userContext with
     | some uc => ["<user_context>\n" ++ uc ++ "\n</user_context>"]
     | none => []) ++
    ["<new_findings>"] ++
    outputs.flatMap (fun o => ["### " ++ o.1, o.2, ""]) ++
    ["</new_findings>"]
  String.intercalate "\n" parts

/-- `LatestGenerator.synthesize_drop`: loads the drop artifacts and synthesizes
unconditionally — there is no check for an empty researcher-output list, so
the pass never raises on a drop with zero outputs. -/
def synthesize_drop (existingLatest userContext : Option String)
    (outputs : List (String × String)) (llm : String → String) :
    Except String String :=
  .ok (llm (buildSynthesisContext existingLatest userContext outputs))

/-! ## Progressive metadata (`core/generators/session_metadata_generator.py`)

Each generator is embedded together with the trace of full-content file reads
(`Path.read_text`) it performs, so that claims about *what is read* are
statable.  Timestamps (`st_mtime` via `datetime.fromtimestamp(...)`) are taken
as an opaque pre-formatted string; the dollar-cost fields
(`round((total_tokens / 1000) * 0.01, 2)`) are floating-point UI estimates
derived from `total_tokens` alone and are omitted. -/

inductive ReadEvent where
  /-- `Path.read_text`: the file's full content is loaded into memory. -/
  | fullRead (name : String)
deriving DecidableEq, Repr

structure DropSummary where
  drop_id : String
  created_at : String
  researchers_count : Nat
  total_tokens : Nat
deriving DecidableEq, Repr

/-- `SessionMetadataGenerator._generate_drop_summary(drop_path)`; `files` is
the glob `researcher-*-output.md` listing as `(file name, content)` in
directory order.  Each file's content is read in full
(`content = file.read_text(...)`) and only `len(content) // 4` of it is
used. -/
def generate_drop_summary (dropId mtime : String)
    (files : List (String × String)) : DropSummary × List ReadEvent :=
  (⟨dropId, mtime, files.length, (files.map (fun f => f.2.length / 4)).sum⟩,
   files.map (fun f => .fullRead f.1))

/-- `Path(name).stem` for ordinary file names: the name without its final
extension. -/
def pyStem (n : String) : String :=
  let parts := n.splitOn "."
  if parts.length ≤ 1 then n else String.intercalate "." parts.dropLast

/-- First 200 characters of `user-context.md`, with `"..."` appended when
truncated (`content[:200] + "..." if len(content) > 200 else content`). -/
def ucSummary (c : String) : String :=
  if 200 < c.length then strTake c 200 ++ "..." else c

structure DropMetaResearcher where
  researcher_id : String
  output_file : String
  token_count : Nat
deriving DecidableEq, Repr

structure DropMetadata where
  drop_id : String
  created_at : String
  user_context : Option String
  researchers : List DropMetaResearcher
  total_tokens : Nat
deriving DecidableEq, Repr

/-- `SessionMetadataGenerator.generate_drop_metadata(drop_path)`; `files` is
the `sorted(...)` researcher-output glob listing.  Both `user-context.md` and
every researcher output are read in full. -/
def generate_drop_metadata (dropId mtime : String) (userContext : Option String)
    (files : List (String × String)) : DropMetadata × List ReadEvent :=
  (⟨dropId, mtime, userContext.map ucSummary,
    files.map (fun f => ⟨pyStem f.1, f.1, f.2.length / 4⟩),
    (files.map (fun f => f.2.length / 4)).sum⟩,
   (match userContext with
    | some _ => [ReadEvent.fullRead "user-context.md"]
    | none => []) ++ files.map (fun f => .fullRead f.1))

/-! ## Research dispatch (`core/ui/adapters/researcher_adapter.py`)

`execute_research_plan` fans the plan's researcher configs out as parallel
tasks via `asyncio.gather(*tasks, return_exceptions=True)` and then keeps the
successful `ResearchOutput`s.  The external engine run by
`_execute_single_researcher` (a `GeneralResearcher.execute_research` call,
retries included) is abstracted as `engine : researcher_id ↦ Except`; the
cooperative cancellation callable is modelled as a time-invariant `Bool`.
Cooperative single-thread concurrency is serialized task by task, which
preserves each task's own event order and the aggregate result set (the
claims here do not concern cross-task interleaving).  The float cost shown in
the completion message (`${output.cost:.2f}`) is omitted from the modelled
message. -/

structure ResearchOutput where
  findings : String
  sources : List String
  token_count : Nat
  researcher_id : String
deriving DecidableEq, Repr

/-- `(researcher_id, status, message)` triple of an `on_progress` call;
statuses are carried as their string values (`ResearcherStatus.FAILED.value`
is `"failed"`). -/
abbrev Event := String × String × String

def statusFailed : String := "failed"

/-- `_execute_single_researcher` for one task: cancellation checks, progress
events, engine invocation, and the `except` handler that reports
`Failed: {e}` for the task's own id and re-raises. -/
def exec_single (rid : String) (engine : String → Except String ResearchOutput)
    (flag : Bool) : List Event × Except String ResearchOutput :=
  if flag then
    ([(rid, statusFailed, "Failed: Research cancelled by user")],
     .error "Research cancelled by user")
  else
    match engine rid with
    | .error e =>
      ([(rid, "Searching", "Searching web sources"),
        (rid, "Analyzing", "Analyzing sources"),
        (rid, statusFailed, "Failed: " ++ e)], .error e)
    | .ok out =>
      ([(rid, "Searching", "Searching web sources"),
        (rid, "Analyzing", "Analyzing sources"),
        (rid, "Writing", "Writing report"),
        (rid, "Complete", toString out.token_count ++ " tokens")], .ok out)

/-- One entry of the plan's `researchers` / `researchers_assigned` list. -/
structure RConfig where
  id : Option String
  focus_question : String
deriving DecidableEq, Repr

/-- `config.get("id", f"researcher-{idx + 1}")`. -/
def assignId (idx : Nat) (cfg : RConfig) : String :=
  cfg.id.getD ("researcher-" ++ toString (idx + 1))

/-- The task list built by the `for idx, config in enumerate(...)` loop,
with each task's events and outcome. -/
def run_tasks (i : Nat) (cfgs : List RConfig)
    (engine : String → Except String ResearchOutput) (flag : Bool) :
    List (String × List Event × Except String ResearchOutput) :=
  match cfgs with
  | [] => []
  | c :: cs =>
    let rid := assignId i c
    (rid, exec_single rid engine flag) :: run_tasks (i + 1) cs engine flag

/-- Contiguous-substring test over character lists. -/
def containsSeq (needle : List Char) : List Char → Bool
  | [] => needle.isEmpty
  | c :: cs => needle.isPrefixOf (c :: cs) || containsSeq needle cs

/-- `"cancelled" in str(output).lower()`. -/
def cancelledIn (e : String) : Bool :=
  containsSeq ("cancelled".toList) (e.toList.map Char.toLower)

/-- The `successful_outputs` filter loop of `execute_research_plan`: keep the
`ResearchOutput`s, drop the exceptions. -/
def plan_outputs (rs : List (String × List Event × Except String ResearchOutput)) :
    List ResearchOutput :=
  rs.filterMap (fun r => r.2.2.toOption)

/-- All progress-callback invocations of one dispatch: each task's own
events, then the filter loop's `on_progress("system", FAILED, ...)` report
for every non-cancellation failure. -/
def plan_events (rs : List (String × List Event × Except String ResearchOutput)) :
    List Event :=
  rs.flatMap (fun r => r.2.1) ++
    rs.filterMap (fun r =>
      match r.2.2 with
      | .error e =>
        if cancelledIn e then none
        else some ("system", statusFailed, "Research error: " ++ e)
      | .ok _ => none)

/-- `ResearcherAdapter.execute_research_plan`: dispatches every task, then
filters the gathered results — successful outputs are returned, failures are
reported through the progress callback (and dropped from the return). -/
def execute_research_plan (cfgs : List RConfig)
    (engine : String → Except String ResearchOutput) (flag : Bool) :
    List Event × List ResearchOutput :=
  (plan_events (run_tasks 0 cfgs engine flag),
   plan_outputs (run_tasks 0 cfgs engine flag))

/-! ## Strategic-context extraction (`core/hq/context_extractor.py`)

`_parse_context_response` slices the agent's reply between the first `{` and
the last `}` and feeds it to `json.loads`; that decoding front end is
abstracted here as an `Option` of the decoded object's fields — `none` covers
both "no brace-delimited candidate" and a `json.JSONDecodeError`, each of
which the Python surfaces as a `ValueError`.  Decoded JSON values are kept
abstract (`Json`); the Python performs no type validation on the fields. -/

inductive Json where
  | null
  | bool (b : Bool)
  | num (n : Int)
  | str (s : String)
  | arr (elems : List Json)
  | obj (fields : List (String × Json))

/-- Dictionary lookup (`context_dict[field]` / `context_dict.get(field)`). -/
def lookupField (fields : List (String × Json)) (k : String) : Option Json :=
  match fields with
  | [] => none
  | (k', v) :: rest => if k' = k then some v else lookupField rest k

/-- The `required_fields` list of `_parse_context_response`; `hypothesis` is
deliberately absent. -/
def requiredFields : List String :=
  ["strategic_why", "decision_context", "mental_models", "priorities",
   "constraints", "success_criteria"]

/-- The `for field in required_fields` validation loop: the first missing
required field, if any. -/
def findMissing (req : List String) (fields : List (String × Json)) :
    Option String :=
  match req with
  | [] => none
  | f :: fs => if (lookupField fields f).isNone then some f else findMissing fs fields

/-- `UserContext` dataclass; field values are whatever JSON the agent
returned (no validation beyond presence).  `extracted_at` is stamped with the
wall clock in `__post_init__` and is not modelled. -/
structure UserContext where
  strategic_why : Json
  decision_context : Json
  mental_models : Json
  priorities : Json
  constraints : Json
  success_criteria : Json
  hypothesis : Option Json

/-- `ContextExtractor._parse_context_response`: `ValueError` (surfaced, never
defaulted) when no JSON object can be decoded or a required field is missing;
`hypothesis` alone is fetched with `.get` and may be absent. -/
def parse_context_response (decoded : Option (List (String × Json))) :
    Except String UserContext :=
  match decoded with
  | none => .error "No JSON found in context extraction response"
  | some fields =>
    match findMissing requiredFields fields with
    | some f => .error ("Missing required field: " ++ f)
    | none =>
      .ok { strategic_why := (lookupField fields "strategic_why").getD .null,
            decision_context := (lookupField fields "decision_context").getD .null,
            mental_models := (lookupField fields "mental_models").getD .null,
            priorities := (lookupField fields "priorities").getD .null,
            constraints := (lookupField fields "constraints").getD .null,
            success_criteria := (lookupField fields "success_criteria").getD .null,
            hypothesis := lookupField fields "hypothesis" }

/-! # Theorems -/

/-- **C6.** For every drop identifier and every drop lifecycle state `s`,
immediately after `update_drop_state(drop_id, s)` completes,
`get_drop_state(drop_id)` returns exactly `s` — never an earlier or later
state: the transition is persisted to the store before `update_drop_state`
returns, so the subsequent read observes it. -/
theorem C6_update_then_get (store : StateManager.Store) (now dropId : String)
    (s : DropState) :
    StateManager.get_drop_state
        (StateManager.update_drop_state store now dropId s.value) dropId =
      .ok (some s) := by
  unfold StateManager.get_drop_state StateManager.update_drop_state
  cases h : store dropId <;> simp [h, DropState.ofString_value]

/-- **C10.** When `drop-state.json` already exists, `update_drop_state`
changes only the `state` and `updated_at` fields: `drop_id` and `created_at`
keep the values recorded at first write, and no other drop's record is
touched. -/
theorem C10_update_frame (store : StateManager.Store) (now dropId stateStr : String)
    (old : StateData) (hexists : store dropId = some old) :
    (∃ new, StateManager.update_drop_state store now dropId stateStr dropId = some new ∧
      new.drop_id = old.drop_id ∧ new.created_at = old.created_at ∧
      new.state = stateStr ∧ new.updated_at = now) ∧
    (∀ d, d ≠ dropId →
      StateManager.update_drop_state store now dropId stateStr d = store d) := by
  constructor
  · refine ⟨{ old with state := stateStr, updated_at := now }, ?_, rfl, rfl, rfl, rfl⟩
    simp [StateManager.update_drop_state, hexists]
  · intro d hd
    simp [StateManager.update_drop_state, hd]

/-- Witness for C10 at a concrete store holding one drop record. -/
theorem C10_update_frame_witness :
    (∃ new, StateManager.update_drop_state
        (fun d => if d = "drop-1" then some ⟨"drop-1", "t0", "proposed", "t0"⟩ else none)
        "t1" "drop-1" "researching" "drop-1" = some new ∧
      new.drop_id = "drop-1" ∧ new.created_at = "t0" ∧
      new.state = "researching" ∧ new.updated_at = "t1") ∧
    (∀ d, d ≠ "drop-1" →
      StateManager.update_drop_state
        (fun d => if d = "drop-1" then some ⟨"drop-1", "t0", "proposed", "t0"⟩ else none)
        "t1" "drop-1" "researching" d =
      (fun d => if d = "drop-1" then some ⟨"drop-1", "t0", "proposed", "t0"⟩ else none) d) := by
  exact C10_update_frame
    (fun d => if d = "drop-1" then some ⟨"drop-1", "t0", "proposed", "t0"⟩ else none)
    "t1" "drop-1" "researching" ⟨"drop-1", "t0", "proposed", "t0"⟩ (by simp)

/-- **C1.** The repository's own UI cancellation path
(`ProgressDisplay._handle_cancellation`) persists the raw state string
`"cancelled"`, but the `DropState` enum has no such member, so
`find_incomplete_drops` raises `ValueError` on any drop persisted as
`cancelled` instead of excluding it and returning normally; drops persisted
as `proposed` / `researching` / `synthesizing` are included and
`complete` / `failed` excluded, as claimed. -/
theorem C1_cancelled_drop_raises :
    StateManager.find_incomplete_drops
        [⟨true, some ⟨"drop-1", "t0", "cancelled", "t1"⟩⟩] =
      .error "cancelled is not a valid DropState" ∧
    StateManager.find_incomplete_drops
        [⟨true, some ⟨"drop-1", "t0", "proposed", "t1"⟩⟩,
         ⟨true, some ⟨"drop-2", "t0", "researching", "t1"⟩⟩,
         ⟨true, some ⟨"drop-3", "t0", "synthesizing", "t1"⟩⟩,
         ⟨true, some ⟨"drop-4", "t0", "complete", "t1"⟩⟩,
         ⟨true, some ⟨"drop-5", "t0", "failed", "t1"⟩⟩] =
      .ok [⟨"drop-1", "t0", "proposed", "t1"⟩,
           ⟨"drop-2", "t0", "researching", "t1"⟩,
           ⟨"drop-3", "t0", "synthesizing", "t1"⟩] := by
  constructor <;> rfl

/-- **C4 counterexample.** `LatestGenerator.synthesize_drop` invoked on a drop
with zero researcher outputs does not raise: it returns whatever document the
agent produces from the empty findings block, contradicting the claim that
both synthesis passes fail with an explicit error. -/
theorem C4_counterexample :
    synthesize_drop none none [] (fun _ => "DOC") = .ok "DOC" := rfl

/-- **C4 (amended).** `CriticalAnalystGenerator.analyze_drop` fails with an
explicit `ValueError` exactly when zero researcher outputs exist, but
`LatestGenerator.synthesize_drop` performs no such check and always
produces a document, even for zero outputs. -/
theorem C4_empty_input_behaviour (dropPath : String) (el uc : Option String)
    (outputs : List (String × String)) (llm : String → String) :
    analyze_drop dropPath uc [] llm =
        .error ("No researcher outputs found in " ++ dropPath) ∧
    (analyze_drop dropPath uc outputs llm).isOk = !outputs.isEmpty ∧
    (synthesize_drop el uc outputs llm).isOk = true := by
  refine ⟨rfl, ?_, rfl⟩
  cases outputs <;> rfl

/-- **C5 counterexample.** Generating a drop summary does read a researcher
output's full findings body into memory: `_generate_drop_summary` calls
`file.read_text` on each `researcher-*-output.md` (only to take its
length). -/
theorem C5_counterexample :
    ReadEvent.fullRead "researcher-1-output.md" ∈
      (generate_drop_summary "drop-1" "t0"
        [("researcher-1-output.md", "hello world")]).2 := by
  simp [generate_drop_summary]

/-- **C5 (amended).** The metadata computation reads every researcher output
in full, but its *result* depends only on each output file's name and content
length (plus file metadata and the user-context file): two drops whose
researcher files agree on names and content lengths yield identical
summaries and identical drop metadata. -/
theorem C5_summary_depends_only_on_lengths (dropId mtime : String)
    (uc : Option String) (files1 files2 : List (String × String))
    (h : List.Forall₂ (fun a b => a.1 = b.1 ∧ a.2.length = b.2.length) files1 files2) :
    (generate_drop_summary dropId mtime files1).1 =
      (generate_drop_summary dropId mtime files2).1 ∧
    (generate_drop_metadata dropId mtime uc files1).1 =
      (generate_drop_metadata dropId mtime uc files2).1 ∧
    (∀ f ∈ files1, ReadEvent.fullRead f.1 ∈ (generate_drop_summary dropId mtime files1).2) := by
  refine ⟨?_, ?_, ?_⟩
  · simp only [generate_drop_summary, DropSummary.mk.injEq, true_and]
    constructor
    · exact h.length_eq
    · congr 1
      induction h with
      | nil => rfl
      | cons hab hrest ih => simp [hab.2, ih]
  · simp only [generate_drop_metadata, DropMetadata.mk.injEq, true_and]
    constructor
    · induction h with
      | nil => rfl
      | cons hab hrest ih => simp [hab.1, hab.2, ih]
    · congr 1
      induction h with
      | nil => rfl
      | cons hab hrest ih => simp [hab.2, ih]
  · intro f hf
    simp only [generate_drop_summary, List.mem_map]
    exact ⟨f, hf, rfl⟩

/-- Witness for C5 at two concrete file lists with equal names and lengths
but different contents. -/
theorem C5_summary_depends_only_on_lengths_witness :
    (generate_drop_summary "drop-1" "t0" [("researcher-1-output.md", "hello")]).1 =
      (generate_drop_summary "drop-1" "t0" [("researcher-1-output.md", "world")]).1 ∧
    (generate_drop_metadata "drop-1" "t0" none [("researcher-1-output.md", "hello")]).1 =
      (generate_drop_metadata "drop-1" "t0" none [("researcher-1-output.md", "world")]).1 ∧
    (∀ f ∈ [("researcher-1-output.md", "hello")], ReadEvent.fullRead f.1 ∈
      (generate_drop_summary "drop-1" "t0" [("researcher-1-output.md", "hello")]).2) :=
  C5_summary_depends_only_on_lengths "drop-1" "t0" none _ _
    (by constructor
        · exact ⟨rfl, rfl⟩
        · exact List.Forall₂.nil)

/-- **C3 counterexample.** Not every persisted artifact is written via the
tmp-sibling-plus-atomic-rename protocol: researcher-output files (and the
synthesis/metadata documents) are saved with a direct truncating
`write_text`, under which a crash can expose a zero-length destination that
is neither the old nor the new content. -/
theorem C3_counterexample :
    ¬ (∀ site ∈ writeSites, ∀ (old : Option String) (c : String),
        ∀ obs ∈ writeObservables site.2 old c, obs = old ∨ obs = some c) := by
  intro h
  have hmem : ("general_researcher.execute_research.researcher_output",
      WriteMethod.direct) ∈ writeSites := by decide
  have hobs : (some "" : Option String) ∈
      writeObservables WriteMethod.direct (some "previous version") "new" := by
    decide
  have := h _ hmem (some "previous version") "new" (some "") hobs
  rcases this with h1 | h1 <;> simp at h1

/-- **C3 (amended).** Writes routed through `StateManager._atomic_write`
(conversation autosave, conversation promotion, drop state, session state)
follow the tmp-then-atomic-rename protocol, so a reader at any crash point
observes either the old content in full or the new content in full; the
remaining persistence sites — researcher-output files, the synthesized
`latest.md`, `critical-analysis.md` and the metadata files — use a direct
in-place `write_text` and do not enjoy that guarantee. -/
theorem C3_write_protocols :
    (∀ (old : Option String) (c : String),
      ∀ obs ∈ writeObservables WriteMethod.atomicReplace old c,
        obs = old ∨ obs = some c) ∧
    (∀ site ∈ writeSites,
      (site.2 = WriteMethod.atomicReplace ↔ site.1 ∈ stateManagerSites)) := by
  constructor
  · intro old c obs hobs
    simpa [writeObservables] using hobs
  · decide

/-- Witness for C3 at a concrete atomic-write observation and a concrete
state-manager write site. -/
theorem C3_write_protocols_witness :
    ((some "new content" : Option String) = some "old content" ∨
      (some "new content" : Option String) = some "new content") ∧
    (WriteMethod.atomicReplace = WriteMethod.atomicReplace ↔
      "state_manager.update_drop_state" ∈ stateManagerSites) :=
  ⟨C3_write_protocols.1 (some "old content") "new content" (some "new content")
      (by decide),
   C3_write_protocols.2 ("state_manager.update_drop_state", .atomicReplace)
      (by decide)⟩

/-- `findMissing` returns `none` exactly when every required field is
present. -/
theorem findMissing_eq_none_iff (req : List String) (fields : List (String × Json)) :
    findMissing req fields = none ↔
      ∀ f ∈ req, (lookupField fields f).isSome = true := by
  induction req with
  | nil => simp [findMissing]
  | cons f fs ih =>
    by_cases hf : (lookupField fields f).isNone
    · simp [findMissing, hf, Option.isNone_iff_eq_none.mp hf]
    · have : (lookupField fields f).isSome = true := by
        cases hh : lookupField fields f
        · simp [hh] at hf
        · simp
      simp [findMissing, hf, ih, this]

/-- **C8.** User-context extraction fails — with an error surfaced to the
caller, never a silent default — exactly when the agent's reply yields no
parseable JSON object or the object lacks one of the six required fields;
when all required fields are present the extraction succeeds, with the
optional `hypothesis` field fetched by `.get` (absence allowed). -/
theorem C8_extraction_failure_conditions (decoded : Option (List (String × Json))) :
    ((parse_context_response decoded).isOk = true ↔
      ∃ fields, decoded = some fields ∧
        ∀ f ∈ requiredFields, (lookupField fields f).isSome = true) ∧
    (∀ fields, (∀ f ∈ requiredFields, (lookupField fields f).isSome = true) →
      parse_context_response (some fields) =
        .ok { strategic_why := (lookupField fields "strategic_why").getD .null,
              decision_context := (lookupField fields "decision_context").getD .null,
              mental_models := (lookupField fields "mental_models").getD .null,
              priorities := (lookupField fields "priorities").getD .null,
              constraints := (lookupField fields "constraints").getD .null,
              success_criteria := (lookupField fields "success_criteria").getD .null,
              hypothesis := lookupField fields "hypothesis" }) := by
  constructor
  · cases decoded with
    | none => simp [parse_context_response, Except.isOk, Except.toBool]
    | some fields =>
      cases hm : findMissing requiredFields fields with
      | none =>
        constructor
        · intro _
          exact ⟨fields, rfl, (findMissing_eq_none_iff _ _).mp hm⟩
        · intro _
          simp [parse_context_response, hm, Except.isOk, Except.toBool]
      | some f =>
        constructor
        · intro hok
          simp [parse_context_response, hm, Except.isOk, Except.toBool] at hok
        · rintro ⟨fields2, heq, hall⟩
          cases heq
          rw [(findMissing_eq_none_iff _ _).mpr hall] at hm
          cases hm
  · intro fields hall
    have hm := (findMissing_eq_none_iff requiredFields fields).mpr hall
    simp [parse_context_response, hm]

/-- Witness for C8: a concrete reply containing all six required fields and
no `hypothesis` parses successfully with `hypothesis := none`. -/
theorem C8_extraction_failure_conditions_witness :
    parse_context_response
        (some [("strategic_why", Json.str "grow"),
               ("decision_context", Json.str "hire"),
               ("mental_models", Json.arr []),
               ("priorities", Json.obj []),
               ("constraints", Json.arr []),
               ("success_criteria", Json.str "clarity")]) =
      .ok { strategic_why :=
              (lookupField [("strategic_why", Json.str "grow"),
                 ("decision_context", Json.str "hire"),
                 ("mental_models", Json.arr []),
                 ("priorities", Json.obj []),
                 ("constraints", Json.arr []),
                 ("success_criteria", Json.str "clarity")] "strategic_why").getD .null,
            decision_context :=
              (lookupField [("strategic_why", Json.str "grow"),
                 ("decision_context", Json.str "hire"),
                 ("mental_models", Json.arr []),
                 ("priorities", Json.obj []),
                 ("constraints", Json.arr []),
                 ("success_criteria", Json.str "clarity")] "decision_context").getD .null,
            mental_models :=
              (lookupField [("strategic_why", Json.str "grow"),
                 ("decision_context", Json.str "hire"),
                 ("mental_models", Json.arr []),
                 ("priorities", Json.obj []),
                 ("constraints", Json.arr []),
                 ("success_criteria", Json.str "clarity")] "mental_models").getD .null,
            priorities :=
              (lookupField [("strategic_why", Json.str "grow"),
                 ("decision_context", Json.str "hire"),
                 ("mental_models", Json.arr []),
                 ("priorities", Json.obj []),
                 ("constraints", Json.arr []),
                 ("success_criteria", Json.str "clarity")] "priorities").getD .null,
            constraints :=
              (lookupField [("strategic_why", Json.str "grow"),
                 ("decision_context", Json.str "hire"),
                 ("mental_models", Json.arr []),
                 ("priorities", Json.obj []),
                 ("constraints", Json.arr []),
                 ("success_criteria", Json.str "clarity")] "constraints").getD .null,
            success_criteria :=
              (lookupField [("strategic_why", Json.str "grow"),
                 ("decision_context", Json.str "hire"),
                 ("mental_models", Json.arr []),
                 ("priorities", Json.obj []),
                 ("constraints", Json.arr []),
                 ("success_criteria", Json.str "clarity")] "success_criteria").getD .null,
            hypothesis :=
              lookupField [("strategic_why", Json.str "grow"),
                 ("decision_context", Json.str "hire"),
                 ("mental_models", Json.arr []),
                 ("priorities", Json.obj []),
                 ("constraints", Json.arr []),
                 ("success_criteria", Json.str "clarity")] "hypothesis" } :=
  (C8_extraction_failure_conditions
      (some [("strategic_why", Json.str "grow"),
             ("decision_context", Json.str "hire"),
             ("mental_models", Json.arr []),
             ("priorities", Json.obj []),
             ("constraints", Json.arr []),
             ("success_criteria", Json.str "clarity")])).2 _
    (by intro f hf
        fin_cases hf <;> rfl)

/-! ### C2: partial-failure isolation of research dispatch -/

theorem run_tasks_length (i : Nat) (cfgs : List RConfig)
    (engine : String → Except String ResearchOutput) (flag : Bool) :
    (run_tasks i cfgs engine flag).length = cfgs.length := by
  induction cfgs generalizing i with
  | nil => rfl
  | cons c cs ih => simp [run_tasks, ih]

theorem run_tasks_shape (i : Nat) (cfgs : List RConfig)
    (engine : String → Except String ResearchOutput) (flag : Bool) :
    ∀ x ∈ run_tasks i cfgs engine flag, x.2 = exec_single x.1 engine flag := by
  induction cfgs generalizing i with
  | nil => intro x hx; cases hx
  | cons c cs ih =>
    intro x hx
    rcases List.mem_cons.mp hx with h | h
    · subst h; rfl
    · exact ih (i + 1) x h

theorem plan_outputs_all_ok_length
    (l : List (String × List Event × Except String ResearchOutput))
    (h : ∀ x ∈ l, ∃ o, x.2.2 = Except.ok o) :
    (plan_outputs l).length = l.length := by
  induction l with
  | nil => rfl
  | cons x xs ih =>
    obtain ⟨o, ho⟩ := h x (List.mem_cons_self x xs)
    have ih2 := ih (fun y hy => h y (List.mem_cons_of_mem x hy))
    simp only [plan_outputs] at ih2 ⊢
    have hstep : List.filterMap (fun r => r.2.2.toOption) (x :: xs) =
        o :: List.filterMap (fun r => r.2.2.toOption) xs := by
      rw [List.filterMap_cons, ho]; rfl
    rw [hstep, List.length_cons, List.length_cons, ih2]

/-- A failing task reports its own identifier through the progress callback
before re-raising. -/
theorem exec_single_error_event (rid : String)
    (engine : String → Except String ResearchOutput) (e : String)
    (h : (exec_single rid engine false).2 = Except.error e) :
    (rid, statusFailed, "Failed: " ++ e) ∈ (exec_single rid engine false).1 := by
  unfold exec_single at h ⊢
  simp only [if_neg (by simp : ¬(false = true))] at h ⊢
  cases heng : engine rid with
  | error e2 =>
    rw [heng] at h
    simp only at h
    cases h
    simp [heng]
  | ok out =>
    rw [heng] at h
    simp at h

/-- **C2.** When, among the concurrently dispatched researcher assignments,
exactly one task fails definitively, `execute_research_plan` still returns
the outputs of every sibling (in dispatch order, the failed slot dropped),
the siblings are not aborted — each of their outputs appears in the result —
the result has one output fewer than there are assignments, and the failing
assignment's identifier is reported through the progress callback. -/
theorem C2_partial_failure_isolation (cfgs : List RConfig)
    (engine : String → Except String ResearchOutput)
    (pre post : List (String × List Event × Except String ResearchOutput))
    (mid : String × List Event × Except String ResearchOutput) (e : String)
    (hsplit : run_tasks 0 cfgs engine false = pre ++ mid :: post)
    (hfail : mid.2.2 = Except.error e)
    (hpre : ∀ x ∈ pre, ∃ o, x.2.2 = Except.ok o)
    (hpost : ∀ x ∈ post, ∃ o, x.2.2 = Except.ok o) :
    (execute_research_plan cfgs engine false).2 =
      plan_outputs pre ++ plan_outputs post ∧
    (∀ x ∈ pre ++ post, ∀ o, x.2.2 = Except.ok o →
      o ∈ (execute_research_plan cfgs engine false).2) ∧
    (execute_research_plan cfgs engine false).2.length = cfgs.length - 1 ∧
    (mid.1, statusFailed, "Failed: " ++ e) ∈ (execute_research_plan cfgs engine false).1 := by
  have houtputs : (execute_research_plan cfgs engine false).2 =
      plan_outputs pre ++ plan_outputs post := by
    show plan_outputs (run_tasks 0 cfgs engine false) = _
    rw [hsplit]
    simp [plan_outputs, List.filterMap_append, List.filterMap_cons, hfail,
      Except.toOption]
  refine ⟨houtputs, ?_, ?_, ?_⟩
  · intro x hx o ho
    rw [houtputs]
    rcases List.mem_append.mp hx with h | h
    · exact List.mem_append_left _
        (List.mem_filterMap.mpr ⟨x, h, by simp [ho, Except.toOption]⟩)
    · exact List.mem_append_right _
        (List.mem_filterMap.mpr ⟨x, h, by simp [ho, Except.toOption]⟩)
  · rw [houtputs]
    have hlen : cfgs.length = pre.length + (post.length + 1) := by
      have := run_tasks_length 0 cfgs engine false
      rw [hsplit] at this
      simpa using this.symm
    rw [List.length_append, plan_outputs_all_ok_length pre hpre,
      plan_outputs_all_ok_length post hpost]
    omega
  · show _ ∈ plan_events (run_tasks 0 cfgs engine false)
    have hmid : mid ∈ run_tasks 0 cfgs engine false := by
      rw [hsplit]; exact List.mem_append_right _ (List.mem_cons_self _ _)
    have hx := run_tasks_shape 0 cfgs engine false mid hmid
    have hev : (mid.1, statusFailed, "Failed: " ++ e) ∈ mid.2.1 := by
      have := exec_single_error_event mid.1 engine e (by rw [← hx]; exact hfail)
      rw [hx]
      exact this
    exact List.mem_append_left _ (List.mem_flatMap.mpr ⟨mid, hmid, hev⟩)

/-- Concrete three-researcher plan for the C2 witness: `researcher-2` fails,
`researcher-1` and `researcher-3` succeed. -/
def c2engine : String → Except String ResearchOutput := fun rid =>
  if rid = "researcher-2" then Except.error "http 500"
  else Except.ok ⟨"findings of " ++ rid, ["https://example.com"], 2500, rid⟩

def c2cfgs : List RConfig := [⟨none, "q1"⟩, ⟨none, "q2"⟩, ⟨none, "q3"⟩]

def c2pre : List (String × List Event × Except String ResearchOutput) :=
  [("researcher-1", exec_single "researcher-1" c2engine false)]

def c2mid : String × List Event × Except String ResearchOutput :=
  ("researcher-2", exec_single "researcher-2" c2engine false)

def c2post : List (String × List Event × Except String ResearchOutput) :=
  [("researcher-3", exec_single "researcher-3" c2engine false)]

/-- Witness for C2 at the concrete three-researcher plan. -/
theorem C2_partial_failure_isolation_witness :
    (execute_research_plan c2cfgs c2engine false).2 =
      plan_outputs c2pre ++ plan_outputs c2post ∧
    (∀ x ∈ c2pre ++ c2post, ∀ o, x.2.2 = Except.ok o →
      o ∈ (execute_research_plan c2cfgs c2engine false).2) ∧
    (execute_research_plan c2cfgs c2engine false).2.length = c2cfgs.length - 1 ∧
    (c2mid.1, statusFailed, "Failed: " ++ "http 500") ∈
      (execute_research_plan c2cfgs c2engine false).1 :=
  C2_partial_failure_isolation c2cfgs c2engine c2pre c2post c2mid "http 500"
    rfl
    rfl
    (by intro x hx
        simp only [c2pre, List.mem_singleton] at hx
        subst hx
        exact ⟨⟨"findings of researcher-1", ["https://example.com"], 2500,
          "researcher-1"⟩, rfl⟩)
    (by intro x hx
        simp only [c2post, List.mem_singleton] at hx
        subst hx
        exact ⟨⟨"findings of researcher-3", ["https://example.com"], 2500,
          "researcher-3"⟩, rfl⟩)

/-! ### C7: conversation round trip -/

/-- A line that the parser treats as plain content: not a `## USER` or
`## ASSISTANT` marker and not a skipped `# `-title line. -/
def plainLine (l : Str) : Bool :=
  !(("## USER".toList).isPrefixOf l) && !(("## ASSISTANT".toList).isPrefixOf l) &&
    !(("# ".toList).isPrefixOf l)

/-- The message shapes for which formatting then parsing is lossless: the
role is exactly `user` or `assistant`, the content carries no leading or
trailing whitespace (the parser strips it), and no content line is a marker
or `# `-title line (the parser would swallow it). -/
def goodMsg (m : Msg) : Prop :=
  (m.role = "user".toList ∨ m.role = "assistant".toList) ∧
  pyStrip m.content = m.content ∧
  ∀ l ∈ pySplit m.content, plainLine l = true

instance (m : Msg) : Decidable (goodMsg m) := by
  unfold goodMsg; infer_instance

/-- The lines contributed by one message to the split document. -/
def msgLines (m : Msg) : List Str :=
  pySplit (markerPiece m.role) ++ pySplit (m.content ++ ['\n'])

def blockLines (msgs : List Msg) : List Str := msgs.flatMap msgLines

theorem pySplit_pyJoin (ps : List Str) (hne : ps ≠ []) :
    pySplit (pyJoin ps) = ps.flatMap pySplit := by
  induction ps with
  | nil => cases hne rfl
  | cons p qs ih =>
    cases qs with
    | nil => simp [pyJoin]
    | cons q rest =>
      rw [show pyJoin (p :: q :: rest) = p ++ '\n' :: pyJoin (q :: rest) from rfl,
        pySplit_append_newline, ih (by simp)]
      simp

/-- The formatted document splits into the title line, a blank line, and the
per-message blocks. -/
theorem split_format (msgs : List Msg) :
    pySplit (format_conversation_md msgs) =
      "# Conversation History".toList :: [] :: blockLines msgs := by
  unfold format_conversation_md blockLines
  rw [pySplit_pyJoin _ (by simp), List.flatMap_cons]
  have hhead : pySplit ("# Conversation History\n".toList) =
      ["# Conversation History".toList, []] := by decide
  rw [hhead]
  have hblocks : (messagePieces msgs).flatMap pySplit = msgs.flatMap msgLines := by
    induction msgs with
    | nil => rfl
    | cons m ms ih =>
      simp only [messagePieces, List.flatMap_cons] at ih ⊢
      rw [← ih]
      simp [msgLines]
  rw [hblocks]
  rfl

/-! Single-step behaviour of the parser on each kind of line. -/

theorem parse_lines_nil_some (r : Str) (acc : List Str) :
    parse_lines [] (some r) acc = [⟨r, pyStrip (pyJoin acc)⟩] := rfl

theorem parse_lines_nil_none (acc : List Str) :
    parse_lines [] none acc = [] := rfl

theorem parse_lines_user_marker (ls : List Str) (r : Str) (acc : List Str) :
    parse_lines ("## USER".toList :: ls) (some r) acc =
      ⟨r, pyStrip (pyJoin acc)⟩ :: parse_lines ls (some "user".toList) [] := rfl

theorem parse_lines_user_marker_none (ls : List Str) (acc : List Str) :
    parse_lines ("## USER".toList :: ls) none acc =
      parse_lines ls (some "user".toList) [] := rfl

theorem parse_lines_assistant_marker (ls : List Str) (r : Str) (acc : List Str) :
    parse_lines ("## ASSISTANT".toList :: ls) (some r) acc =
      ⟨r, pyStrip (pyJoin acc)⟩ :: parse_lines ls (some "assistant".toList) [] := rfl

theorem parse_lines_assistant_marker_none (ls : List Str) (acc : List Str) :
    parse_lines ("## ASSISTANT".toList :: ls) none acc =
      parse_lines ls (some "assistant".toList) [] := rfl

theorem parse_lines_title (ls : List Str) (r : Option Str) (acc : List Str) :
    parse_lines ("# Conversation History".toList :: ls) r acc =
      parse_lines ls r acc := rfl

theorem parse_lines_plain (l : Str) (hl : plainLine l = true) (ls : List Str)
    (r : Option Str) (acc : List Str) :
    parse_lines (l :: ls) r acc = parse_lines ls r (acc ++ [l]) := by
  simp only [plainLine, Bool.and_eq_true, Bool.not_eq_true'] at hl
  obtain ⟨⟨h1, h2⟩, h3⟩ := hl
  simp only [parse_lines, h1, h2, h3]
  simp

/-- Consuming a run of plain lines just accumulates them. -/
theorem parse_lines_accum (ls : List Str) (h : ∀ l ∈ ls, plainLine l = true)
    (rest : List Str) (r : Option Str) (acc : List Str) :
    parse_lines (ls ++ rest) r acc = parse_lines rest r (acc ++ ls) := by
  induction ls generalizing acc with
  | nil => simp
  | cons l ls2 ih =>
    rw [List.cons_append, parse_lines_plain l (h l (List.mem_cons_self l ls2))]
    rw [ih (fun x hx => h x (List.mem_cons_of_mem l hx))]
    simp

theorem pyJoin_append_blank (xs : List Str) (hne : xs ≠ []) :
    pyJoin (xs ++ [[]]) = pyJoin xs ++ ['\n'] := by
  induction xs with
  | nil => cases hne rfl
  | cons x ys ih =>
    cases ys with
    | nil => rfl
    | cons y rest =>
      rw [show (x :: y :: rest) ++ [[]] = x :: ((y :: rest) ++ [[]]) from rfl]
      rw [show pyJoin (x :: ((y :: rest) ++ [[]])) =
        x ++ '\n' :: pyJoin ((y :: rest) ++ [[]]) from rfl]
      rw [ih (by simp)]
      simp [pyJoin]

/-- The accumulated block `[""] ++ split(content) ++ [""]` strips back to the
content. -/
theorem strip_block (c : Str) :
    pyStrip (pyJoin ([] :: (pySplit c ++ [[]]))) = pyStrip c := by
  have h1 : pyJoin ([] :: (pySplit c ++ [[]])) = '\n' :: (pyJoin (pySplit c) ++ ['\n']) := by
    cases hs : pySplit c with
    | nil => exact absurd hs (pySplit_ne_nil c)
    | cons p ps =>
      rw [show ([] : Str) :: ((p :: ps) ++ [[]]) = [] :: (p :: ps) ++ [[]] from rfl]
      rw [pyJoin_append_blank _ (by simp)]
      rfl
  rw [h1, pyJoin_pySplit, pyStrip_cons_newline, pyStrip_append_newline]

theorem msgLines_user (m : Msg) (h : m.role = "user".toList) :
    msgLines m = "## USER".toList :: ([] :: (pySplit m.content ++ [[]])) := by
  unfold msgLines markerPiece
  rw [h]
  have h1 : pySplit ("## ".toList ++ pyUpper ("user".toList) ++ ['\n']) =
      ["## USER".toList, []] := by decide
  rw [h1, pySplit_append_last]
  rfl

theorem msgLines_assistant (m : Msg) (h : m.role = "assistant".toList) :
    msgLines m = "## ASSISTANT".toList :: ([] :: (pySplit m.content ++ [[]])) := by
  unfold msgLines markerPiece
  rw [h]
  have h1 : pySplit ("## ".toList ++ pyUpper ("assistant".toList) ++ ['\n']) =
      ["## ASSISTANT".toList, []] := by decide
  rw [h1, pySplit_append_last]
  rfl

theorem goodMsg_content_plains (m : Msg) (hplain : ∀ l ∈ pySplit m.content, plainLine l = true) :
    ∀ l ∈ (([] : Str) :: (pySplit m.content ++ [[]])), plainLine l = true := by
  intro l hl
  rcases List.mem_cons.mp hl with h0 | h0
  · subst h0; decide
  · rcases List.mem_append.mp h0 with h1 | h1
    · exact hplain l h1
    · simp only [List.mem_singleton] at h1
      subst h1; decide

/-- Running the parser over the blocks of well-formed messages, with one
pending message `(r, c)` accumulated, flushes the pending message and
reconstructs the rest. -/
theorem parse_blocks (msgs : List Msg) (h : ∀ m ∈ msgs, goodMsg m) :
    ∀ (r c : Str), pyStrip c = c →
      parse_lines (blockLines msgs) (some r) ([] :: (pySplit c ++ [[]])) =
        ⟨r, c⟩ :: msgs := by
  induction msgs with
  | nil =>
    intro r c hc
    rw [show blockLines [] = [] from rfl, parse_lines_nil_some, strip_block, hc]
  | cons m ms ih =>
    intro r c hc
    obtain ⟨hrole, hstrip, hplain⟩ := h m (List.mem_cons_self m ms)
    have hms : ∀ x ∈ ms, goodMsg x := fun x hx => h x (List.mem_cons_of_mem m hx)
    have hplains := goodMsg_content_plains m hplain
    have htail := ih hms m.role m.content hstrip
    rcases hrole with hr | hr
    · rw [show blockLines (m :: ms) = msgLines m ++ blockLines ms from rfl,
        msgLines_user m hr,
        show ("## USER".toList :: ([] :: (pySplit m.content ++ [[]]))) ++ blockLines ms =
          "## USER".toList :: (([] :: (pySplit m.content ++ [[]])) ++ blockLines ms) from rfl,
        parse_lines_user_marker, strip_block, hc,
        parse_lines_accum _ hplains, List.nil_append, ← hr, htail]
    · rw [show blockLines (m :: ms) = msgLines m ++ blockLines ms from rfl,
        msgLines_assistant m hr,
        show ("## ASSISTANT".toList :: ([] :: (pySplit m.content ++ [[]]))) ++ blockLines ms =
          "## ASSISTANT".toList :: (([] :: (pySplit m.content ++ [[]])) ++ blockLines ms) from rfl,
        parse_lines_assistant_marker, strip_block, hc,
        parse_lines_accum _ hplains, List.nil_append, ← hr, htail]

/-- **C7 (amended).** Formatting then parsing is a lossless round trip for
conversations whose messages all have role exactly `user` or `assistant`,
content with no leading or trailing whitespace, and no content line starting
with `## USER`, `## ASSISTANT` or `# `. -/
theorem C7_roundtrip_amended (msgs : List Msg) (h : ∀ m ∈ msgs, goodMsg m) :
    parse_conversation_md (format_conversation_md msgs) = msgs := by
  unfold parse_conversation_md
  rw [split_format, parse_lines_title,
    parse_lines_plain ([] : Str) (by decide), List.nil_append]
  cases msgs with
  | nil => rfl
  | cons m ms =>
    obtain ⟨hrole, hstrip, hplain⟩ := h m (List.mem_cons_self m ms)
    have hms : ∀ x ∈ ms, goodMsg x := fun x hx => h x (List.mem_cons_of_mem m hx)
    have hplains := goodMsg_content_plains m hplain
    have htail := parse_blocks ms hms m.role m.content hstrip
    rcases hrole with hr | hr
    · rw [show blockLines (m :: ms) = msgLines m ++ blockLines ms from rfl,
        msgLines_user m hr,
        show ("## USER".toList :: ([] :: (pySplit m.content ++ [[]]))) ++ blockLines ms =
          "## USER".toList :: (([] :: (pySplit m.content ++ [[]])) ++ blockLines ms) from rfl,
        parse_lines_user_marker_none,
        parse_lines_accum _ hplains, List.nil_append, ← hr, htail]
    · rw [show blockLines (m :: ms) = msgLines m ++ blockLines ms from rfl,
        msgLines_assistant m hr,
        show ("## ASSISTANT".toList :: ([] :: (pySplit m.content ++ [[]]))) ++ blockLines ms =
          "## ASSISTANT".toList :: (([] :: (pySplit m.content ++ [[]])) ++ blockLines ms) from rfl,
        parse_lines_assistant_marker_none,
        parse_lines_accum _ hplains, List.nil_append, ← hr, htail]

/-- Witness for C7 at a concrete two-message conversation. -/
theorem C7_roundtrip_amended_witness :
    parse_conversation_md (format_conversation_md
      [⟨"user".toList, "hello there".toList⟩,
       ⟨"assistant".toList, "hi, how can I help?".toList⟩]) =
      [⟨"user".toList, "hello there".toList⟩,
       ⟨"assistant".toList, "hi, how can I help?".toList⟩] :=
  C7_roundtrip_amended _ (by intro m hm; fin_cases hm <;> exact (by decide))

/-- **C7 counterexample.** A message whose body contains a line starting with
`# ` does not survive the round trip: the parser drops the line, so the
loaded conversation differs from the saved one. -/
theorem C7_counterexample :
    parse_conversation_md (format_conversation_md
        [⟨"user".toList, "a\n# b".toList⟩]) =
      [⟨"user".toList, "a".toList⟩] ∧
    ([⟨"user".toList, ("a" : String).toList⟩] : List Msg) ≠
      [⟨"user".toList, "a\n# b".toList⟩] := by
  constructor
  · decide
  · decide

/-! ### C9: compaction-savings estimate -/

/-- Modelled from the spec's words, for comparison with the code: "70% of
the estimated token count (characters divided by 4) of all messages except
the most recent N". -/
def specClaimedCompactionSavings (messages : List Msg) (keepRecent : Nat) : Nat :=
  7 * ((((messages.take (messages.length - keepRecent)).map
      (fun m => m.content.length)).sum) / 4) / 10

/-- The rounded significand stays within half a unit of the exact product. -/
theorem roundMantissa_approx (p s : Nat) (hs : 1 ≤ s) :
    p ≤ roundMantissa p s * 2 ^ s + 2 ^ (s - 1) ∧
      roundMantissa p s * 2 ^ s ≤ p + 2 ^ (s - 1) := by
  have hdm : 2 ^ s * (p / 2 ^ s) + p % 2 ^ s = p := Nat.div_add_mod p (2 ^ s)
  have hrlt : p % 2 ^ s < 2 ^ s := Nat.mod_lt _ (by positivity)
  have h2s : 2 ^ s = 2 * 2 ^ (s - 1) := by
    conv_lhs => rw [show s = s - 1 + 1 by omega, pow_succ]
    ring
  unfold roundMantissa
  split
  · rename_i hcond
    have hr_ge : 2 ^ (s - 1) ≤ p % 2 ^ s := by
      rcases hcond with h | h
      · omega
      · omega
    have hexp : (p / 2 ^ s + 1) * 2 ^ s = 2 ^ s * (p / 2 ^ s) + 2 ^ s := by ring
    omega
  · rename_i hcond
    push_neg at hcond
    have hr_le : p % 2 ^ s ≤ 2 ^ (s - 1) := hcond.1
    have hexp : p / 2 ^ s * 2 ^ s = 2 ^ s * (p / 2 ^ s) := by ring
    omega

/-- For `1 ≤ t ≤ 2^49`, CPython's `int(t * 0.7)` is `⌊7t/10⌋` or one below
it. -/
theorem pyIntMul07_bounds (t : Nat) (h1 : 1 ≤ t) (h2 : t ≤ 2 ^ 49) :
    7 * t / 10 - 1 ≤ pyIntMul07 t ∧ pyIntMul07 t ≤ 7 * t / 10 := by
  have hM : fl07Num = 6305039478318694 := rfl
  have hp0 : t * fl07Num ≠ 0 := by
    apply Nat.mul_ne_zero <;> omega
  unfold pyIntMul07
  rw [if_neg hp0]
  by_cases hb : Nat.log2 (t * fl07Num) + 1 ≤ 53
  · rw [if_pos hb]
    have hlog53 : Nat.log2 (t * fl07Num) < 53 := by omega
    have hplt : t * fl07Num < 2 ^ 53 := (Nat.log2_lt hp0).mp hlog53
    have ht1 : t = 1 := by
      by_contra hne
      have h2le : 2 * fl07Num ≤ t * fl07Num := Nat.mul_le_mul_right _ (by omega)
      rw [hM] at h2le hplt
      norm_num at h2le hplt
      omega
    subst ht1
    have hz : 1 * fl07Num / 2 ^ 53 = 0 := Nat.div_eq_of_lt (by norm_num [hM])
    rw [hz]
    norm_num
  · rw [if_neg hb]
    set s := Nat.log2 (t * fl07Num) + 1 - 53 with hsdef
    set p := t * fl07Num with hpdef
    have hs1 : 1 ≤ s := by omega
    obtain ⟨happrox1, happrox2⟩ := roundMantissa_approx p s hs1
    set X := roundMantissa p s * 2 ^ s with hXdef
    set half := 2 ^ (s - 1) with hhalfdef
    -- p is bounded by its leading binary digit
    have hplo : half * 2 ^ 53 ≤ p := by
      have hlog : 2 ^ Nat.log2 p ≤ p := Nat.log2_self_le hp0
      have hexp : Nat.log2 p = (s - 1) + 53 := by omega
      rw [hexp, pow_add] at hlog
      exact hlog
    have hpa : p < t * 2 ^ 53 := by
      rw [hpdef]
      exact Nat.mul_lt_mul_of_le_of_lt (le_refl t) (by norm_num [hM]) (by omega)
    have hA : (2 : Nat) ^ 53 = 9007199254740992 := by norm_num
    have hB : (2 : Nat) ^ 49 = 562949953421312 := by norm_num
    have h7t : 7 * t * 9007199254740992 = 10 * p + 4 * t := by
      rw [hpdef, hM]
      omega
    have hfdm : 10 * (7 * t / 10) + 7 * t % 10 = 7 * t := Nat.div_add_mod (7 * t) 10
    have hfr : 7 * t % 10 < 10 := Nat.mod_lt _ (by norm_num)
    rw [hA] at hplo hpa
    rw [hB] at h2
    constructor
    · rw [Nat.le_div_iff_mul_le (k := 2 ^ 53) (by positivity), hA]
      omega
    · have hdiv : X / 2 ^ 53 < 7 * t / 10 + 1 := by
        rw [Nat.div_lt_iff_lt_mul (by positivity), hA]
        omega
      omega

/-- **C9 counterexample.** With 16 messages of 40 characters each and
`keep_recent = 15`, the claim's formula gives 70% of the oldest message's 10
estimated tokens, i.e. 7, but `estimate_compaction_savings` returns 0: the
`can_compact` guard (`len(messages) > keep_recent + 5`) fails. -/
theorem C9_counterexample :
    ContextTracker.estimate_compaction_savings
        (List.replicate 16 ⟨"user".toList, List.replicate 40 'a'⟩) 15 = 0 ∧
    specClaimedCompactionSavings
        (List.replicate 16 ⟨"user".toList, List.replicate 40 'a'⟩) 15 = 7 ∧
    ContextTracker.estimate_compaction_savings
        (List.replicate 16 ⟨"user".toList, List.replicate 40 'a'⟩) 15 ≠
      specClaimedCompactionSavings
        (List.replicate 16 ⟨"user".toList, List.replicate 40 'a'⟩) 15 := by
  refine ⟨by decide, by decide, by decide⟩

/-- An estimated-token count of 1 (the floor that `max(1, ...)` imposes on an
empty older portion) saves nothing: `int(1 * 0.7) = 0`. -/
theorem pyIntMul07_one : pyIntMul07 (ContextTracker.estimate_tokens 0) = 0 := by
  have he : ContextTracker.estimate_tokens 0 = 1 := rfl
  rw [he]
  have hne : (1 * fl07Num) ≠ 0 := by norm_num [fl07Num]
  have hb : Nat.log2 (1 * fl07Num) + 1 ≤ 53 := by
    have hhi : Nat.log2 (1 * fl07Num) < 53 :=
      (Nat.log2_lt hne).mpr (by norm_num [fl07Num])
    omega
  unfold pyIntMul07
  rw [if_neg hne, if_pos hb]
  exact Nat.div_eq_of_lt (by norm_num [fl07Num])

/-- **C9 (amended).** `estimate_compaction_savings` returns 0 whenever the
message count is at most `keep_recent + 5` (the `can_compact` guard) and
whenever `keep_recent = 0` (Python's `[:-0]` slice selects no messages);
otherwise it returns `int(old_tokens * 0.7)` computed in IEEE-754 double
arithmetic over `old_tokens = max(1, old_chars // 4)` of all messages except
the most recent `keep_recent` — which, for `old_tokens ≤ 2^49`, is within
one below `⌊7·old_tokens/10⌋`, i.e. 70% of the older portion's estimated
tokens up to truncation. -/
theorem C9_compaction_savings (messages : List Msg) (keepRecent : Nat) :
    (messages.length ≤ keepRecent + 5 →
      ContextTracker.estimate_compaction_savings messages keepRecent = 0) ∧
    (keepRecent = 0 →
      ContextTracker.estimate_compaction_savings messages keepRecent = 0) ∧
    (keepRecent + 5 < messages.length → 1 ≤ keepRecent →
      ContextTracker.estimate_tokens (ContextTracker.oldChars messages keepRecent) ≤ 2 ^ 49 →
      7 * ContextTracker.estimate_tokens (ContextTracker.oldChars messages keepRecent) / 10 - 1 ≤
          ContextTracker.estimate_compaction_savings messages keepRecent ∧
        ContextTracker.estimate_compaction_savings messages keepRecent ≤
          7 * ContextTracker.estimate_tokens (ContextTracker.oldChars messages keepRecent) / 10) := by
  refine ⟨?_, ?_, ?_⟩
  · intro h
    have hc : ContextTracker.can_compact messages keepRecent = false := by
      simp only [ContextTracker.can_compact]
      exact decide_eq_false (by omega)
    simp [ContextTracker.estimate_compaction_savings, hc]
  · intro h
    subst h
    unfold ContextTracker.estimate_compaction_savings
    by_cases hc : ContextTracker.can_compact messages 0 = true
    · rw [if_pos hc]
      have hslice : ContextTracker.oldChars messages 0 = 0 := by
        simp [ContextTracker.oldChars, ContextTracker.sliceDropLast]
      rw [hslice]
      exact pyIntMul07_one
    · rw [if_neg hc]
  · intro hlen hk ht
    have hc : ContextTracker.can_compact messages keepRecent = true := by
      simp only [ContextTracker.can_compact]
      exact decide_eq_true hlen
    unfold ContextTracker.estimate_compaction_savings
    rw [if_pos hc]
    exact pyIntMul07_bounds _ (Nat.le_max_left 1 _) ht

/-- Witness for C9 at 26 messages of 40 characters and `keep_recent = 6`. -/
theorem C9_compaction_savings_witness :
    6 + 5 < (List.replicate 26 (⟨"user".toList, List.replicate 40 'a'⟩ : Msg)).length ∧
    1 ≤ 6 ∧
    ContextTracker.estimate_tokens (ContextTracker.oldChars
      (List.replicate 26 (⟨"user".toList, List.replicate 40 'a'⟩ : Msg)) 6) ≤ 2 ^ 49 ∧
    (7 * ContextTracker.estimate_tokens (ContextTracker.oldChars
        (List.replicate 26 (⟨"user".toList, List.replicate 40 'a'⟩ : Msg)) 6) / 10 - 1 ≤
      ContextTracker.estimate_compaction_savings
        (List.replicate 26 (⟨"user".toList, List.replicate 40 'a'⟩ : Msg)) 6 ∧
      ContextTracker.estimate_compaction_savings
        (List.replicate 26 (⟨"user".toList, List.replicate 40 'a'⟩ : Msg)) 6 ≤
      7 * ContextTracker.estimate_tokens (ContextTracker.oldChars
        (List.replicate 26 (⟨"user".toList, List.replicate 40 'a'⟩ : Msg)) 6) / 10) :=
  ⟨by decide, by decide, by decide,
   (C9_compaction_savings
      (List.replicate 26 (⟨"user".toList, List.replicate 40 'a'⟩ : Msg)) 6).2.2
     (by decide) (by decide) (by decide)⟩

end GtmFactory
